import Mathlib

/-!
Verification of the noid-js streaming transport and session logic.

The definitions below are a shallow embedding of the TypeScript source:
`src/constants.ts` (StreamID channel bytes), `src/internal/websocket.ts`
(binary frame decoding and dispatch), `src/exec.ts` (VmCommand: the
streaming command session), and `src/console.ts` (VmConsole: environment
injection and marker synchronization).  Bytes are modelled as `Nat`,
buffers as `List Nat`, JS strings as `String` or `List Char`, and the
exit promise as an `Option Int` resolution slot.
-/

namespace NoidJs

/-- Channel tag byte for stdout, from `src/constants.ts` (`StreamID.Stdout = 0x01`). -/
def StreamID.Stdout : Nat := 1

/-- Channel tag byte for stderr, from `src/constants.ts` (`StreamID.Stderr = 0x02`). -/
def StreamID.Stderr : Nat := 2

/-- Channel tag byte for stdin, from `src/constants.ts` (`StreamID.Stdin = 0x03`). -/
def StreamID.Stdin : Nat := 3

/-- Channel tag byte for resize, from `src/constants.ts` (`StreamID.Resize = 0x04`). -/
def StreamID.Resize : Nat := 4

/-- Binary frame encoding: the one-byte channel tag is prepended to the
payload.  This is what `VmConsole.sendRawStdin` and the stdin pipe do:
`frame[0] = StreamID.Stdin; data.copy(frame, 1)`. -/
def encodeBinary (channel : Nat) (payload : List Nat) : List Nat :=
  channel :: payload

/-- Binary frame decoding, from the message handler in
`src/internal/websocket.ts`: a frame of length zero is rejected
(`if (buf.length < 1) return` — modelled as `none`, the MalformedFrame
condition); otherwise `channel = buf[0]` and `payload = buf.subarray(1)`. -/
def decodeBinary (bytes : List Nat) : Option (Nat × List Nat) :=
  match bytes with
  | [] => none
  | c :: p => some (c, p)

/-- Events the low-level socket wrapper emits to its listeners. -/
inductive WsEvent where
  | stdout (payload : List Nat)
  | stderr (payload : List Nat)
  | message (text : String)
  deriving Repr, DecidableEq

/-- Dispatch of a decoded binary frame, from the `switch (channel)` in
`src/internal/websocket.ts`: Stdout and Stderr tags emit the corresponding
event with the payload; every other tag falls to `default: break` and
emits nothing.  A malformed (empty) frame emits nothing. -/
def dispatchBinary (bytes : List Nat) : List WsEvent :=
  match decodeBinary bytes with
  | none => []
  | some (c, p) =>
    if c = StreamID.Stdout then [WsEvent.stdout p]
    else if c = StreamID.Stderr then [WsEvent.stderr p]
    else []

/-- Connection state visible to the binary-frame handler: whether the
underlying socket is open. -/
structure ConnState where
  isOpen : Bool
  deriving Repr, DecidableEq

/-- The full effect of one incoming binary frame on the connection: the
handler in `src/internal/websocket.ts` only emits listener events; it never
closes the socket, never throws, and never mutates connection state. -/
def handleRawBinary (s : ConnState) (bytes : List Nat) : ConnState × List WsEvent :=
  (s, dispatchBinary bytes)

/-- A parsed JSON text frame as seen by the `message` handler of
`VmCommand.start` (`src/exec.ts`).  For each JSON field, the outer
`Option` records presence of the field and, for nullable fields, the
inner `Option` records null: `none` = field absent, `some none` = field
present with value null, `some (some v)` = field present with value v. -/
structure TextFrame where
  exit_code : Option (Option Int)
  timed_out : Option (Option Bool)
  truncated : Option Bool
  error : Option String
  deriving Repr, DecidableEq

/-- State of one streaming command session (`VmCommand` in `src/exec.ts`):
the `_exitCode` field (initially -1), the chunks written to the stdout and
stderr passthrough streams, whether each stream has been ended, and the
resolution slot of the exit promise (`none` while `wait()` is pending). -/
structure CmdState where
  exitCode : Int
  stdoutData : List (List Nat)
  stderrData : List (List Nat)
  stdoutEnded : Bool
  stderrEnded : Bool
  resolvedExit : Option Int
  deriving Repr, DecidableEq

/-- The state of a freshly constructed `VmCommand`: `_exitCode = -1`, both
streams open and empty, exit promise pending. -/
def CmdState.initial : CmdState :=
  { exitCode := -1, stdoutData := [], stderrData := [],
    stdoutEnded := false, stderrEnded := false, resolvedExit := none }

/-- JS promise resolution: `resolveExit(code)` settles the promise only if
it is still pending; resolving an already-resolved promise is a no-op. -/
def resolveExit (r : Option Int) (code : Int) : Option Int :=
  match r with
  | none => some code
  | some c => some c

/-- Events `VmCommand` emits to its callers. -/
inductive CmdEvent where
  | exit (code : Int)
  | errorEvt (msg : String)
  | spawn
  deriving Repr, DecidableEq

/-- The `message` handler of `VmCommand.start` (`src/exec.ts` lines 71-93)
applied to a successfully parsed JSON text frame.  If the object has an
`exit_code` or `timed_out` field it is the command result: the code is 124
when `timed_out` is true (JS truthiness: only the value `true` counts),
otherwise `exit_code ?? 0` (null or absent coalesce to 0); both streams
are ended, the exit promise resolved, and an exit event emitted.
Otherwise an object with an `error` field emits an error event and changes
nothing else.  Any other object is ignored. -/
def handleMessage (s : CmdState) (f : TextFrame) : CmdState × List CmdEvent :=
  if f.exit_code.isSome ∨ f.timed_out.isSome then
    let code : Int :=
      if f.timed_out = some (some true) then 124
      else (f.exit_code.bind id).getD 0
    ({ s with
        exitCode := code
        stdoutEnded := true
        stderrEnded := true
        resolvedExit := resolveExit s.resolvedExit code },
     [CmdEvent.exit code])
  else
    match f.error with
    | some e => (s, [CmdEvent.errorEvt e])
    | none => (s, [])

/-- The `close` handler of `VmCommand.start` (`src/exec.ts` lines 99-105):
if no exit code was ever observed (`_exitCode === -1`), end both streams
and resolve the exit promise with -1; otherwise do nothing. -/
def handleClose (s : CmdState) : CmdState :=
  if s.exitCode = -1 then
    { s with
        stdoutEnded := true
        stderrEnded := true
        resolvedExit := resolveExit s.resolvedExit (-1) }
  else s

/-- The `stdout` handler of `VmCommand.start`: append the chunk to the
stdout stream. -/
def handleStdout (s : CmdState) (data : List Nat) : CmdState :=
  { s with stdoutData := s.stdoutData ++ [data] }

/-- The `stderr` handler of `VmCommand.start`: append the chunk to the
stderr stream. -/
def handleStderr (s : CmdState) (data : List Nat) : CmdState :=
  { s with stderrData := s.stderrData ++ [data] }

/-- `wait()` returns the exit promise: its value is the resolution slot. -/
def CmdState.wait (s : CmdState) : Option Int :=
  s.resolvedExit

/-- The spawn options of `VmCommand` (`SpawnOptions` in `src/types.ts`):
optional environment map (modelled as an association list) and optional
tty flag. -/
structure SpawnOptions where
  env : Option (List (String × String))
  tty : Option Bool
  deriving Repr, DecidableEq

/-- The command request object serialized into the first text frame
(`ExecRequest` on the wire): command array, tty flag, env entries as
KEY=VALUE strings. -/
structure ExecRequest where
  command : List String
  tty : Bool
  env : List String
  deriving Repr, DecidableEq

/-- `VmCommand.buildExecRequest` (`src/exec.ts` lines 46-56): env entries
are `Object.entries(env).map(([k, v]) => k + "=" + v)` when supplied,
otherwise empty; tty defaults to false. -/
def buildExecRequest (command : List String) (options : Option SpawnOptions) :
    ExecRequest :=
  { command := command
    tty := (options.bind (fun o => o.tty)).getD false
    env :=
      match options.bind (fun o => o.env) with
      | some e => e.map (fun kv => kv.1 ++ "=" ++ kv.2)
      | none => [] }

/-- Externally visible actions of a streaming command session run, in
program order. -/
inductive StartAction where
  | connect
  | sendText (req : ExecRequest)
  | emitSpawn
  | processFrame (idx : Nat)
  deriving Repr, DecidableEq

/-- Recognizer for text sends in a session trace. -/
def StartAction.isSendText : StartAction → Bool
  | StartAction.sendText _ => true
  | _ => false

/-- The action trace of `VmCommand.start` (`src/exec.ts` lines 107-111):
`await this.ws.connect()`, then `this.ws.sendText(this.buildExecRequest())`,
then `this.emit(spawn)`.  No other send appears anywhere in the method. -/
def execStart (command : List String) (options : Option SpawnOptions) :
    List StartAction :=
  [StartAction.connect,
   StartAction.sendText (buildExecRequest command options),
   StartAction.emitSpawn]

/-- A whole session run on the single-threaded event loop: incoming frames
queued by the socket are processed only after `start()` has finished its
synchronous tail (the send and the spawn event), because the resumption of
`await connect()` and the following statements run before any queued
socket message callback. -/
def execSessionTrace (command : List String) (options : Option SpawnOptions)
    (numFrames : Nat) : List StartAction :=
  execStart command options ++ (List.range numFrames).map StartAction.processFrame

/-- `VmConsole.injectEnvVars` escaping (`src/console.ts`):
`value.replace(/'/g, "'\\''")` — every single quote in the value is
replaced by the four characters quote, backslash, quote, quote. -/
def escapeQuotes : List Char → List Char
  | [] => []
  | c :: rest =>
    if c = '\'' then '\'' :: '\\' :: '\'' :: '\'' :: escapeQuotes rest
    else c :: escapeQuotes rest

/-- The injected input line of `VmConsole.injectEnvVars`:
one leading space, `export`, the key, `=`, the single-quoted escaped
value, and a carriage return. -/
def injectLine (key value : List Char) : List Char :=
  ' ' :: ("export ".data ++ key ++ '=' :: '\'' :: escapeQuotes value ++ ['\'', '\r'])

/-- Lexer mode of the POSIX quote-removal model: plain text, inside
single quotes, or immediately after a backslash in plain text. -/
inductive QuoteMode where
  | plain
  | single
  | escaped
  deriving Repr, DecidableEq

/-- Modelled from POSIX shell quote removal (the external semantics the
spec appeals to with "replaying the line through a POSIX-compatible
shell"): process a word left to right; in plain text a backslash escapes
the next character and a quote enters single-quote mode; inside single
quotes every character is literal until the closing quote.  Returns
`none` on an unterminated quote or trailing backslash. -/
def shellUnquote : QuoteMode → List Char → Option (List Char)
  | QuoteMode.plain, [] => some []
  | QuoteMode.single, [] => none
  | QuoteMode.escaped, [] => none
  | QuoteMode.plain, c :: rest =>
    if c = '\'' then shellUnquote QuoteMode.single rest
    else if c = '\\' then shellUnquote QuoteMode.escaped rest
    else (shellUnquote QuoteMode.plain rest).map (fun l => c :: l)
  | QuoteMode.single, c :: rest =>
    if c = '\'' then shellUnquote QuoteMode.plain rest
    else (shellUnquote QuoteMode.single rest).map (fun l => c :: l)
  | QuoteMode.escaped, c :: rest =>
    (shellUnquote QuoteMode.plain rest).map (fun l => c :: l)

/-- Modelled from POSIX shell assignment parsing: split the word at the
first `=` into the variable name and the value, and remove quoting from
the value. -/
def parseAssignment : List Char → Option (List Char × List Char)
  | [] => none
  | c :: rest =>
    if c = '=' then
      (shellUnquote QuoteMode.plain rest).map (fun v => (([] : List Char), v))
    else (parseAssignment rest).map (fun kv => (c :: kv.1, kv.2))

/-- Fixed synchronization timeout of `VmConsole.injectEnvVars`
(`setTimeout(..., 3000)`). -/
def ENV_SYNC_TIMEOUT_MS : Nat := 3000

/-- Events racing inside the `injectEnvVars` promise: a stdout chunk
arriving at a given time, or the timer firing. -/
inductive SyncEvent where
  | chunk (time : Nat) (data : List Char)
  | timerFired (time : Nat)
  deriving Repr, DecidableEq

/-- The promise body of `VmConsole.injectEnvVars` (`src/console.ts` lines
296-314): stdout chunks are appended to an accumulator string; the promise
resolves at the first chunk whose accumulated text contains the marker, or
when the timer fires, whichever event comes first.  The result is the
resolution time, `none` if the event stream ends with the promise pending. -/
def runSync (marker : List Char) : List SyncEvent → List Char → Option Nat
  | [], _ => none
  | SyncEvent.chunk t data :: rest, buf =>
    let buf2 := buf ++ data
    if marker <:+: buf2 then some t else runSync marker rest buf2
  | SyncEvent.timerFired t :: _, _ => some t

/-- The event stream of one injection run: the stdout chunks that arrive
before the 3-second timer (later chunks are never seen — the timer callback
removes the stdout listener), followed by the timer event. -/
def syncEvents (arrivals : List (Nat × List Char)) : List SyncEvent :=
  (arrivals.filter (fun a => a.1 < ENV_SYNC_TIMEOUT_MS)).map
      (fun a => SyncEvent.chunk a.1 a.2)
    ++ [SyncEvent.timerFired ENV_SYNC_TIMEOUT_MS]

/-- Outcome of `VmConsole.start`: whether the open event was emitted and
at what time. -/
structure ConsoleRun where
  openEmitted : Bool
  openTime : Nat
  deriving Repr, DecidableEq

/-- `VmConsole.start` (`src/console.ts` lines 327-352): after the
connection handshake, when a non-empty env map was supplied the session
awaits `injectEnvVars` (whose promise resolves by marker detection or by
the 3-second timer) and then emits the open event; with no env the open
event is emitted immediately. -/
def consoleStart (env : List (String × String)) (marker : List Char)
    (arrivals : List (Nat × List Char)) : ConsoleRun :=
  if env.isEmpty then { openEmitted := true, openTime := 0 }
  else
    { openEmitted := true
      openTime := (runSync marker (syncEvents arrivals) []).getD ENV_SYNC_TIMEOUT_MS }

/-- Helper: scanning the quote-escaped value in single-quote mode, followed
by the closing quote, recovers exactly the original characters and
continues in plain mode. -/
theorem shellUnquote_escapeQuotes (v rest : List Char) :
    shellUnquote QuoteMode.single (escapeQuotes v ++ '\'' :: rest) =
      (shellUnquote QuoteMode.plain rest).map (fun l => v ++ l) := by
  induction v generalizing rest with
  | nil => simp [escapeQuotes, shellUnquote]
  | cons c v ih =>
    by_cases hc : c = '\''
    · subst hc
      simp [escapeQuotes, shellUnquote, ih, Option.map_map, Function.comp_def]
    · simp [escapeQuotes, shellUnquote, hc, ih, Option.map_map, Function.comp_def]

/-- Helper: parsing the generated assignment word through the POSIX model
recovers the key and the original value. -/
theorem parseAssignment_escaped (key value : List Char) (hk : '=' ∉ key) :
    parseAssignment (key ++ ('=' :: '\'' :: (escapeQuotes value ++ ['\'']))) =
      some (key, value) := by
  induction key with
  | nil => simp [parseAssignment, shellUnquote, shellUnquote_escapeQuotes]
  | cons c key ih =>
    have hc : ¬c = '=' := fun h => hk (by simp [h])
    have hk2 : '=' ∉ key := fun h => hk (List.mem_cons_of_mem c h)
    have hrec := ih hk2
    simp only [List.cons_append, parseAssignment, if_neg hc, List.append_eq]
    rw [hrec]
    rfl

/-- Helper: the race inside the injection promise always resolves, no
later than the timer event, provided every chunk event precedes it. -/
theorem runSync_completes (marker : List Char) (pre : List (Nat × List Char))
    (buf : List Char) (h : ∀ a ∈ pre, a.1 < ENV_SYNC_TIMEOUT_MS) :
    ∃ t, runSync marker
        (pre.map (fun a => SyncEvent.chunk a.1 a.2) ++
          [SyncEvent.timerFired ENV_SYNC_TIMEOUT_MS]) buf = some t ∧
      t ≤ ENV_SYNC_TIMEOUT_MS := by
  induction pre generalizing buf with
  | nil => exact ⟨ENV_SYNC_TIMEOUT_MS, rfl, Nat.le_refl _⟩
  | cons a pre ih =>
    simp only [List.map_cons, List.cons_append, runSync]
    by_cases hm : marker <:+: buf ++ a.2
    · exact ⟨a.1, by simp [hm], Nat.le_of_lt (h a (List.mem_cons_self a pre))⟩
    · have hrec := ih (buf ++ a.2) (fun b hb => h b (List.mem_cons_of_mem a hb))
      simpa [hm] using hrec

/-- C2: decoding the binary frame built by prepending a known channel tag
byte to a payload yields exactly that tag and the unmodified payload. -/
theorem decode_encode_roundtrip (T : Nat) (P : List Nat)
    (hT : T = StreamID.Stdout ∨ T = StreamID.Stderr ∨
          T = StreamID.Stdin ∨ T = StreamID.Resize) :
    decodeBinary (encodeBinary T P) = some (T, P) := rfl

/-- Witness for C2 at the stdin tag with payload [104, 105]. -/
theorem decode_encode_roundtrip_witness :
    decodeBinary (encodeBinary StreamID.Stdin [104, 105]) =
      some (StreamID.Stdin, [104, 105]) :=
  decode_encode_roundtrip StreamID.Stdin [104, 105]
    (Or.inr (Or.inr (Or.inl rfl)))

/-- C8: a zero-length binary frame decodes to the MalformedFrame condition
(`none`), is discarded with no listener event, and leaves the connection
state untouched. -/
theorem zero_length_frame_discarded (s : ConnState) :
    decodeBinary [] = none ∧ handleRawBinary s [] = (s, []) :=
  ⟨rfl, rfl⟩

/-- Witness for C8 on an open connection. -/
theorem zero_length_frame_discarded_witness :
    decodeBinary [] = none ∧ handleRawBinary ⟨true⟩ [] = (⟨true⟩, []) :=
  zero_length_frame_discarded ⟨true⟩

/-- C9: a binary frame whose channel tag is none of the four known tags is
still decoded successfully — the unrecognized tag and the payload are
returned as-is — and its dispatch emits no event, raises no error, and
leaves the connection state unchanged. -/
theorem unknown_channel_accepted (c : Nat) (p : List Nat) (s : ConnState)
    (h1 : c ≠ StreamID.Stdout) (h2 : c ≠ StreamID.Stderr)
    (h3 : c ≠ StreamID.Stdin) (h4 : c ≠ StreamID.Resize) :
    decodeBinary (c :: p) = some (c, p) ∧
    handleRawBinary s (c :: p) = (s, []) := by
  refine ⟨rfl, ?_⟩
  simp [handleRawBinary, dispatchBinary, decodeBinary, h1, h2]

/-- Witness for C9 at tag 9 with payload [7]. -/
theorem unknown_channel_accepted_witness :
    decodeBinary (9 :: [7]) = some (9, [7]) ∧
    handleRawBinary ⟨true⟩ (9 :: [7]) = (⟨true⟩, []) :=
  unknown_channel_accepted 9 [7] ⟨true⟩ (by decide) (by decide)
    (by decide) (by decide)

/-- C3: the session trace of a streaming command run starts with the
connection handshake, then exactly one text send carrying the serialized
command request (command array, tty flag, KEY=VALUE env entries), and
every incoming-frame processing step comes strictly after both; no second
request frame ever appears. -/
theorem start_sends_single_request (command : List String)
    (options : Option SpawnOptions) (numFrames : Nat) :
    ((execSessionTrace command options numFrames).countP
        StartAction.isSendText = 1) ∧
    (execSessionTrace command options numFrames)[0]? =
      some StartAction.connect ∧
    (execSessionTrace command options numFrames)[1]? =
      some (StartAction.sendText (buildExecRequest command options)) ∧
    ∀ i k, (execSessionTrace command options numFrames)[i]? =
      some (StartAction.processFrame k) → 2 < i := by
  refine ⟨?_, rfl, rfl, ?_⟩
  · simp [execSessionTrace, execStart, List.countP_append, List.countP_map,
      List.countP_cons, StartAction.isSendText, Function.comp]
  · intro i k h
    rcases i with _ | _ | _ | i
    · simp [execSessionTrace, execStart] at h
    · simp [execSessionTrace, execStart] at h
    · simp [execSessionTrace, execStart] at h
    · omega

/-- Witness for C3 at a concrete command with two incoming frames: the
trace holds exactly one text send, and frame 0 is processed at index 3. -/
theorem start_sends_single_request_witness :
    (execSessionTrace ["ls"] none 2).countP StartAction.isSendText = 1 ∧
    2 < 3 :=
  ⟨(start_sends_single_request ["ls"] none 2).1,
   (start_sends_single_request ["ls"] none 2).2.2.2 3 0 (by decide)⟩

/-- C1: in the Running state (exit promise pending), a text frame with an
exit_code or timed_out field ends both output streams and resolves
`wait()` to 124 when timed_out is true, and to the given integer
exit_code otherwise. -/
theorem cmd_result_frame_resolves (s : CmdState) (f : TextFrame)
    (hs : s.resolvedExit = none)
    (hres : f.exit_code.isSome ∨ f.timed_out.isSome) :
    (handleMessage s f).1.stdoutEnded = true ∧
    (handleMessage s f).1.stderrEnded = true ∧
    (f.timed_out = some (some true) →
      (handleMessage s f).1.wait = some 124) ∧
    (∀ n : Int, f.timed_out ≠ some (some true) → f.exit_code = some (some n) →
      (handleMessage s f).1.wait = some n) := by
  refine ⟨?_, ?_, ?_, ?_⟩
  · simp [handleMessage, if_pos hres]
  · simp [handleMessage, if_pos hres]
  · intro ht
    simp [handleMessage, if_pos hres, CmdState.wait, ht, resolveExit, hs]
  · intro n hne he
    simp [handleMessage, if_pos hres, CmdState.wait, hne, he, resolveExit, hs]

/-- Witness for C1: result frame with exit_code 7 and timed_out false
resolves wait() to 7 with both streams ended. -/
theorem cmd_result_frame_resolves_witness :
    (handleMessage CmdState.initial
        ⟨some (some 7), some (some false), none, none⟩).1.stdoutEnded = true ∧
    (handleMessage CmdState.initial
        ⟨some (some 7), some (some false), none, none⟩).1.stderrEnded = true ∧
    (handleMessage CmdState.initial
        ⟨some (some 7), some (some false), none, none⟩).1.wait = some 7 := by
  have h := cmd_result_frame_resolves CmdState.initial
    ⟨some (some 7), some (some false), none, none⟩ rfl (Or.inl rfl)
  exact ⟨h.1, h.2.1, h.2.2.2 7 (by decide) rfl⟩

/-- C10: a terminal frame with exit_code null and timed_out false is
coalesced to exit status 0: wait() resolves to 0 and the exit event
carries 0. -/
theorem null_exit_code_is_zero (s : CmdState) (f : TextFrame)
    (hs : s.resolvedExit = none)
    (h1 : f.exit_code = some none) (h2 : f.timed_out = some (some false)) :
    (handleMessage s f).1.wait = some 0 ∧
    (handleMessage s f).2 = [CmdEvent.exit 0] := by
  simp [handleMessage, h1, h2, CmdState.wait, resolveExit, hs]

/-- Witness for C10 at the initial session state. -/
theorem null_exit_code_is_zero_witness :
    (handleMessage CmdState.initial
        ⟨some none, some (some false), none, none⟩).1.wait = some 0 ∧
    (handleMessage CmdState.initial
        ⟨some none, some (some false), none, none⟩).2 = [CmdEvent.exit 0] :=
  null_exit_code_is_zero CmdState.initial
    ⟨some none, some (some false), none, none⟩ rfl rfl rfl

/-- C4: when the connection closes before any terminal frame was observed
(exit code still the -1 sentinel, promise pending), the close handler ends
both streams and resolves wait() to the abnormal sentinel -1, which is
neither 0 nor any real (non-negative) exit status. -/
theorem close_without_result_abnormal (s : CmdState)
    (h1 : s.exitCode = -1) (h2 : s.resolvedExit = none) :
    (handleClose s).wait = some (-1) ∧
    (handleClose s).stdoutEnded = true ∧
    (handleClose s).stderrEnded = true ∧
    ∀ n : Int, 0 ≤ n → (handleClose s).wait ≠ some n := by
  have hw : (handleClose s).wait = some (-1) := by
    simp [handleClose, h1, h2, CmdState.wait, resolveExit]
  refine ⟨hw, ?_, ?_, ?_⟩
  · simp [handleClose, h1]
  · simp [handleClose, h1]
  · intro n hn hc
    rw [hw] at hc
    have : (-1 : Int) = n := by injection hc
    omega

/-- Witness for C4 at the initial session state. -/
theorem close_without_result_abnormal_witness :
    (handleClose CmdState.initial).wait = some (-1) ∧
    (handleClose CmdState.initial).stdoutEnded = true := by
  have h := close_without_result_abnormal CmdState.initial rfl rfl
  exact ⟨h.1, h.2.1⟩

/-- C5: a text frame carrying only an error field emits exactly one error
event, delivers no command result (state unchanged, wait() still
pending, no exit event), and the subsequent connection close terminates
the session with the abnormal sentinel rather than an exit status. -/
theorem error_frame_no_result (s : CmdState) (f : TextFrame) (e : String)
    (he : f.error = some e) (h1 : f.exit_code = none) (h2 : f.timed_out = none)
    (h3 : s.exitCode = -1) (h4 : s.resolvedExit = none) :
    (handleMessage s f).2 = [CmdEvent.errorEvt e] ∧
    (handleMessage s f).1 = s ∧
    (handleMessage s f).1.wait = none ∧
    (∀ c, CmdEvent.exit c ∉ (handleMessage s f).2) ∧
    (handleClose (handleMessage s f).1).wait = some (-1) := by
  have hm : handleMessage s f = (s, [CmdEvent.errorEvt e]) := by
    simp [handleMessage, h1, h2, he]
  refine ⟨by rw [hm], by rw [hm], ?_, ?_, ?_⟩
  · rw [hm]
    exact h4
  · intro c
    rw [hm]
    simp
  · rw [hm]
    simp [handleClose, h3, h4, CmdState.wait, resolveExit]

/-- Witness for C5: an error frame with message "boom" at the initial
session state. -/
theorem error_frame_no_result_witness :
    (handleMessage CmdState.initial ⟨none, none, none, some "boom"⟩).2 =
      [CmdEvent.errorEvt "boom"] ∧
    (handleMessage CmdState.initial ⟨none, none, none, some "boom"⟩).1 =
      CmdState.initial := by
  have h := error_frame_no_result CmdState.initial
    ⟨none, none, none, some "boom"⟩ "boom" rfl rfl rfl rfl rfl
  exact ⟨h.1, h.2.1⟩

/-- C6: the injected env line has exactly one leading space (the next
character is the e of export), is the shell export of the key with the
single-quote-escaped value, and replaying its assignment word through the
POSIX quote-removal model assigns the original value to the key. -/
theorem env_injection_line_correct (key value : List Char) (hk : '=' ∉ key) :
    (injectLine key value)[0]? = some ' ' ∧
    (injectLine key value)[1]? = some 'e' ∧
    injectLine key value =
      ' ' :: ("export ".data ++
        ((key ++ ('=' :: '\'' :: (escapeQuotes value ++ ['\'']))) ++ ['\r'])) ∧
    parseAssignment (key ++ ('=' :: '\'' :: (escapeQuotes value ++ ['\'']))) =
      some (key, value) := by
  refine ⟨rfl, rfl, ?_, parseAssignment_escaped key value hk⟩
  simp [injectLine]

/-- Witness for C6: key A, value "it's ok", the test vector from the spec. -/
theorem env_injection_line_correct_witness :
    parseAssignment ("A".data ++ ('=' :: '\'' ::
        (escapeQuotes ("it's ok".data) ++ ['\'']))) =
      some ("A".data, "it's ok".data) :=
  (env_injection_line_correct "A".data "it's ok".data (by decide)).2.2.2

/-- C7: the environment-injection synchronization always resolves — at the
first stdout chunk whose accumulated text contains the marker, or at the
3-second timer, whichever comes first — never later than the timeout, and
the console session emits its open event in every case. -/
theorem env_sync_best_effort (env : List (String × String)) (marker : List Char)
    (arrivals : List (Nat × List Char)) :
    (consoleStart env marker arrivals).openEmitted = true ∧
    (consoleStart env marker arrivals).openTime ≤ ENV_SYNC_TIMEOUT_MS ∧
    ∃ t, runSync marker (syncEvents arrivals) [] = some t ∧
      t ≤ ENV_SYNC_TIMEOUT_MS := by
  have hfilter : ∀ a ∈ arrivals.filter (fun a => a.1 < ENV_SYNC_TIMEOUT_MS),
      a.1 < ENV_SYNC_TIMEOUT_MS := by
    intro a ha
    have := (List.mem_filter.mp ha).2
    simpa using this
  obtain ⟨t, ht, hle⟩ := runSync_completes marker
    (arrivals.filter (fun a => a.1 < ENV_SYNC_TIMEOUT_MS)) [] hfilter
  have hsync : runSync marker (syncEvents arrivals) [] = some t := by
    simpa [syncEvents] using ht
  refine ⟨?_, ?_, t, hsync, hle⟩
  · by_cases he : env.isEmpty <;> simp [consoleStart, he]
  · by_cases he : env.isEmpty
    · simp [consoleStart, he]
    · simp [consoleStart, he, hsync]
      exact hle

/-- Witness for C7 at a single-variable env, marker mk, one stdout chunk
containing the marker at time 5. -/
theorem env_sync_best_effort_witness :
    (consoleStart [("A", "1")] "mk".data [(5, "xmky".data)]).openEmitted
      = true ∧
    (consoleStart [("A", "1")] "mk".data [(5, "xmky".data)]).openTime
      ≤ ENV_SYNC_TIMEOUT_MS :=
  ⟨(env_sync_best_effort [("A", "1")] "mk".data [(5, "xmky".data)]).1,
   (env_sync_best_effort [("A", "1")] "mk".data [(5, "xmky".data)]).2.1⟩

end NoidJs
